import Mathlib

/-!
Verification of the session/process-management core of the rs-pi server.

The Rust sources are embedded shallowly:
* `CBuf`/`cbWrite`/`cbRead`/`cbWriteTo` embed `src/circular_buffer.rs`
  (`CircularBuffer<N>` with its `Write::write`, `Read::read` and `write_to`);
* `Session`/`run_command`/`kill`/`read_output` embed `src/command_runner.rs`
  (`ClientSession`);
* `readerStep` embeds the loop body of the thread spawned by
  `ClientSession::spawn_buf_reader`;
* `adoptCmd` embeds the `"adopt"` arm of `Client::do_rspi_process_cmds`
  in `src/client.rs`.

Bytes are modelled as `Nat` (the code only moves them around), machine
`usize` arithmetic as `Nat` (all quantities involved are bounded by buffer
sizes, far below overflow), and fallible I/O as `Except Unit`.
-/

namespace RsPi

/-- Embeds `CircularBuffer<N>` (`src/circular_buffer.rs`): backing array
`data` (kept as a list of fixed length `N`), read cursor `head`, logical
length `len`. -/
structure CBuf where
  data : List Nat
  head : Nat
  len : Nat
deriving DecidableEq

/-- Embeds `CircularBuffer::new()`: zeroed backing array, `head = 0`,
`len = 0`. -/
def newCB (N : Nat) : CBuf :=
  { data := List.replicate N 0, head := 0, len := 0 }

/-- Helper: store the bytes of `src` into `dest` at consecutive positions
starting at `pos` (`List.set` ignores out-of-range positions; the embedded
code only uses it in range). This renders the `copy_from_slice` calls of
the Rust code. -/
def writeRange : List Nat → Nat → List Nat → List Nat
  | dest, _, [] => dest
  | dest, pos, x :: xs => writeRange (dest.set pos x) (pos + 1) xs

/-- Embeds `<CircularBuffer<N> as Write>::write` (`circular_buffer.rs`
lines 66-76): `tail = (head+len) % N`; `size = N.min(buf.len())`;
`first_half = size.min(N-tail)`; copy `buf[..first_half]` to
`data[tail..tail+first_half]` and, if `first_half < size`, copy
`buf[first_half..size]` to `data[..size-first_half]`;
`len = N.min(len+size)`. Returns the new state and the reported count
`size`. Note the code never advances `head`. -/
def cbWrite (N : Nat) (b : CBuf) (buf : List Nat) : CBuf × Nat :=
  let tail := (b.head + b.len) % N
  let size := min N buf.length
  let first_half := min size (N - tail)
  let d1 := writeRange b.data tail (buf.take first_half)
  let d2 := if first_half < size then writeRange d1 0 ((buf.take size).drop first_half) else d1
  (⟨d2, b.head, min N (b.len + size)⟩, size)

/-- Embeds `<CircularBuffer<N> as Read>::read` (`circular_buffer.rs`
lines 44-55) for a caller-supplied output capacity `k` (= `buf.len()`):
on an empty buffer, the `WouldBlock` error; otherwise removes
`size = len.min(k)` bytes in FIFO order (two slices split at the wrap
point), decrements `len` and advances `head` modulo `N`. -/
def cbRead (N : Nat) (b : CBuf) (k : Nat) : Except Unit (List Nat × CBuf) :=
  if b.len = 0 then .error () else
  let size := min b.len k
  let first_half := min size (N - b.head)
  let out := ((b.data.take (b.head + first_half)).drop b.head) ++ (b.data.take (size - first_half))
  .ok (out, ⟨b.data, (b.head + size) % N, b.len - size⟩)

/-- The state of `cbRead`'s buffer afterwards (the unchanged buffer when
the read reported `WouldBlock`). -/
def cbReadState (N : Nat) (b : CBuf) (k : Nat) : CBuf :=
  match cbRead N b k with
  | .ok (_, b2) => b2
  | .error _ => b

/-- A byte sink standing for the generic `T: Write` passed to `write_to`.
`log` records every byte accepted so far; `cap = some c` makes any
`write_all` that would push the log beyond `c` bytes fail (modelling a
failing sink), `cap = none` always succeeds. -/
structure Sink where
  log : List Nat
  cap : Option Nat
deriving DecidableEq

/-- One `write_all` call on the sink: accepts the whole chunk or fails. -/
def sinkWriteAll (s : Sink) (chunk : List Nat) : Except Unit Sink :=
  match s.cap with
  | none => .ok ⟨s.log ++ chunk, s.cap⟩
  | some c => if s.log.length + chunk.length ≤ c then .ok ⟨s.log ++ chunk, s.cap⟩ else .error ()

/-- Embeds `CircularBuffer::write_to` (`circular_buffer.rs` lines 21-29):
`write_all(&data[head..N.min(head+len)])?`; then, if `head+len > N`,
`write_all(&data[..len])?` (the code really passes `..self.len`, not the
wrapped remainder); then `head = (head+len) % N; len = 0`. A failing
`write_all` propagates with the buffer unchanged. Returns the result, the
buffer state and the sink state. -/
def cbWriteTo (N : Nat) (b : CBuf) (snk : Sink) : Except Unit Unit × CBuf × Sink :=
  match sinkWriteAll snk ((b.data.take (min N (b.head + b.len))).drop b.head) with
  | .error e => (.error e, b, snk)
  | .ok s1 =>
    if N < b.head + b.len then
      match sinkWriteAll s1 (b.data.take b.len) with
      | .error e => (.error e, b, s1)
      | .ok s2 => (.ok (), ⟨b.data, (b.head + b.len) % N, 0⟩, s2)
    else
      (.ok (), ⟨b.data, (b.head + b.len) % N, 0⟩, s1)

/-- The bytes a fully successful full drain (`write_to` into an
always-accepting sink) delivers. -/
def drainBytes (N : Nat) (b : CBuf) : List Nat :=
  (cbWriteTo N b ⟨[], none⟩).2.2.log

/-- Folding a sequence of `write` calls over a buffer. -/
def writeAll (N : Nat) (b : CBuf) (ws : List (List Nat)) : CBuf :=
  ws.foldl (fun acc w => (cbWrite N acc w).1) b

/-- Modelled from the spec: "a full drain returns exactly the last N bytes
written, in order" — the last `n` bytes of a byte stream `l`. -/
def specLastBytes (n : Nat) (l : List Nat) : List Nat :=
  l.drop (l.length - n)

/-- Modelled from the spec: the buffer's contents "in FIFO order starting
at head" — `len` bytes read circularly from `head`. -/
def specFifoContents (N : Nat) (b : CBuf) : List Nat :=
  (List.range b.len).map (fun i => b.data.getD ((b.head + i) % N) 0)

/-- Invariant claimed by the spec for `CircularBuffer`:
`0 ≤ head < N` and `0 ≤ length ≤ N` (the lower bounds are inherent to
`Nat`). -/
def invCB (N : Nat) (b : CBuf) : Prop :=
  b.head < N ∧ b.len ≤ N

instance (N : Nat) (b : CBuf) : Decidable (invCB N b) := by
  unfold invCB; infer_instance

/-- Total number of bytes in a sequence of `write` calls. -/
def totalLen (ws : List (List Nat)) : Nat :=
  (ws.map List.length).sum

end RsPi

namespace RsPi

/-- Rust `str::split_whitespace`, as a structural recursion over the
characters with an accumulator for the token being built: whitespace runs
separate tokens, and no empty token is produced. -/
def splitWSAux : List Char → List Char → List (List Char)
  | [], acc => if acc.isEmpty then [] else [acc.reverse]
  | c :: cs, acc =>
    if c.isWhitespace then
      if acc.isEmpty then splitWSAux cs []
      else acc.reverse :: splitWSAux cs []
    else splitWSAux cs (c :: acc)

/-- The token list `cmd.split_whitespace()` collected into a `Vec`. -/
def splitWS (cs : List Char) : List (List Char) :=
  splitWSAux cs []

/-- Rust `Vec<&str>::join(" ")`, used for the argument of `cd`. -/
def joinSpace : List (List Char) → List Char
  | [] => []
  | [x] => x
  | x :: xs => x ++ ' ' :: joinSpace xs

/-- Rust `str::parse::<usize>()`: an optional leading `'+'`, then at least
one ASCII digit. `usize` overflow is not modelled (`Nat` is unbounded); all
inputs relevant here are tiny. -/
def parseUsize (s : List Char) : Option Nat :=
  let cs := match s with
    | c :: rest => if c = '+' then rest else c :: rest
    | [] => []
  if cs.isEmpty then none
  else if cs.all Char.isDigit then
    some (cs.foldl (fun a c => a * 10 + (c.toNat - 48)) 0)
  else none

/-- ASCII lower-casing of one character (`u8::to_ascii_lowercase`). -/
def toLowerAscii (c : Char) : Char :=
  if 'A' ≤ c ∧ c ≤ 'Z' then Char.ofNat (c.toNat + 32) else c

/-- Rust `str::eq_ignore_ascii_case`. -/
def eqIgnoreAsciiCase (a b : List Char) : Bool :=
  a.map toLowerAscii == b.map toLowerAscii

/-- The child-process slot of a session: a spawned child is either still
running or has exited with a status that has not been consumed yet.
`Child::try_wait` on `running` reports "no status yet", on `exited st`
reports `st` (OS-level `try_wait` failures are not modelled). -/
inductive Proc where
  | running : Proc
  | exited : Nat → Proc
deriving DecidableEq

/-- Embeds the observable fields of `ClientSession`
(`src/command_runner.rs`): last command name, child-process slot, working
directory, stdin pipe (identified by a handle number), and the two atomic
flags. `readerEof` is not a struct field: it models whether the background
reader thread spawned by `spawn_buf_reader` has observed end-of-data and
terminated (only destruction of the pseudo-terminal causes that). Paths
and names are byte strings (`List Char`). -/
structure Session where
  cmd_name : List Char
  process : Option Proc
  path : List Char
  stdin : Option Nat
  is_running : Bool
  outputting : Bool
  readerEof : Bool
deriving DecidableEq

/-- The OS facilities `run_command` consumes, as oracles:
`canonicalize cur loc` is `cur.join(loc).canonicalize()` (`none` = fs
error), `spawn name` is a successful `PseudoTerminal::run_cmd` spawn
returning the child's stdin handle (`none` = spawn error). -/
structure SpawnEnv where
  canonicalize : List Char → List Char → Option (List Char)
  spawn : List Char → Option Nat

/-- Embeds `ClientSession::new` (post reader start-up): command name
`"None"`, no child, no stdin pipe; the spawned reader thread has stored
`true` into `is_running` and has not observed end-of-data. -/
def newSession (from_path : List Char) : Session :=
  { cmd_name := "None".toList, process := none, path := from_path,
    stdin := none, is_running := true, outputting := false, readerEof := false }

/-- Errors of `run_command` (`command_runner.rs` lines 48-99): a previous
child still running, an empty command line, a failed `cd`, a failed
spawn. -/
inductive RunErr where
  | busy : RunErr
  | emptyCmd : RunErr
  | cdFail : RunErr
  | spawnFail : RunErr
deriving DecidableEq

/-- The part of `run_command` after the reap step: parse the command line;
empty input errors; `cd` canonicalizes against the working directory and
mutates only `path`; anything else spawns a child with a piped stdin,
recording the stdin handle and the command name only on success. -/
def runCmdParsed (env : SpawnEnv) (s : Session) (cmd : List Char)
    (last_status : Option Nat) : Except RunErr (Option Nat) × Session :=
  match splitWS cmd with
  | [] => (.error .emptyCmd, s)
  | cmd_name :: rest =>
    if cmd_name = "cd".toList then
      match env.canonicalize s.path (joinSpace rest) with
      | some p => (.ok last_status, { s with path := p })
      | none => (.error .cdFail, s)
    else
      match env.spawn cmd_name with
      | some h =>
        (.ok last_status,
          { s with process := some .running, stdin := some h, cmd_name := cmd_name })
      | none => (.error .spawnFail, s)

/-- Embeds `ClientSession::run_command` (`command_runner.rs` lines 48-99):
first the reap step — a still-running child makes it fail busy with no
state change; an exited child is reaped (slot cleared, status carried as
the eventual `Ok` payload) before anything else happens — then the parsed
command is executed. -/
def run_command (env : SpawnEnv) (s : Session) (cmd : List Char) :
    Except RunErr (Option Nat) × Session :=
  match s.process with
  | some .running => (.error .busy, s)
  | some (.exited st) => runCmdParsed env { s with process := none } cmd (some st)
  | none => runCmdParsed env s cmd none

/-- Embeds `ClientSession::set_is_outputting`. -/
def set_is_outputting (s : Session) (val : Bool) : Session :=
  { s with outputting := val }

/-- Embeds `ClientSession::kill` (`command_runner.rs` lines 190-199): if a
child is attached and the OS kill succeeds (`killOk`), store `false` into
`is_running` via `set_running_status`; the process slot is not cleared and
the reader thread is not touched. -/
def kill (killOk : Bool) (s : Session) : Session :=
  match s.process with
  | some _ => if killOk then { s with is_running := false } else s
  | none => s

/-- Embeds `ClientSession::exit_status` (`command_runner.rs` lines
215-227): consume the status of an exited child, clearing the slot;
otherwise no state change. -/
def exit_status (s : Session) : Option Nat × Session :=
  match s.process with
  | some (.exited st) => (some st, { s with process := none })
  | some .running => (none, s)
  | none => (none, s)

/-- Embeds `ClientSession::read_output` (`command_runner.rs` lines
256-267) with the buffer lock acquired and unpoisoned: on an empty buffer
the `UnexpectedEof` error; otherwise `write_to` runs and its result is
discarded (`let _ = out.write_to(to); Ok(())`). -/
def read_output (N : Nat) (b : CBuf) (snk : Sink) :
    Except Unit Unit × CBuf × Sink :=
  if b.len = 0 then (.error (), b, snk)
  else (.ok (), (cbWriteTo N b snk).2)

/-- Outcome of the `"adopt"` arm of `Client::do_rspi_process_cmds`:
either a successful hand-off (new active session, previously active
session to be closed, remaining pool), the not-found report with the pool
untouched, or a panic of the handling thread. -/
inductive AdoptResult where
  | ok : Session → Session → List Session → AdoptResult
  | notFound : List Session → AdoptResult
  | panic : AdoptResult
deriving DecidableEq

/-- Renders `procs.iter().position(|p| p.cmd_name.eq_ignore_ascii_case(arg))`
followed by `procs.remove(id)`, as one pass: the first session whose name
matches case-insensitively is taken out, the rest keep their order. -/
def removeByName (arg : List Char) : List Session → Option (Session × List Session)
  | [] => none
  | p :: ps =>
    if eqIgnoreAsciiCase p.cmd_name arg then some (p, ps)
    else match removeByName arg ps with
      | some (q, rest) => some (q, p :: rest)
      | none => none

/-- Embeds the `"adopt"` arm of `Client::do_rspi_process_cmds`
(`src/client.rs` lines 213-247) with the pool lock acquired: if `arg`
parses as a `usize`, the active session's outputting flag is cleared and
`procs.remove(id)` runs — `Vec::remove` panics when `id` is out of
bounds, there is no bounds check; otherwise the first case-insensitive
name match is removed; if neither applies, the not-found message is
written and the pool is untouched. On success the adopted session (with
outputting set) becomes active and the old active session is handed out
for closing. -/
def adoptCmd (active : Session) (pool : List Session) (arg : List Char) :
    AdoptResult :=
  match parseUsize arg with
  | some id =>
    let active1 := set_is_outputting active false
    if h : id < pool.length then
      .ok (set_is_outputting (pool.get ⟨id, h⟩) true) active1 (pool.eraseIdx id)
    else
      .panic
  | none =>
    match removeByName arg pool with
    | some (adopted, rest) =>
      .ok (set_is_outputting adopted true) (set_is_outputting active false) rest
    | none => .notFound pool

/-- Read events delivered to the background reader: end-of-data, one byte
(the loop reads one byte at a time), or an OS read error whose text is
`msg`. -/
inductive ReadEvent where
  | eof : ReadEvent
  | byte : Nat → ReadEvent
  | fault : List Nat → ReadEvent
deriving DecidableEq

/-- State of the background reader: its temporary accumulation `buf`, the
shared output buffer (lock contention for the blocking `lock()` call is
not modelled — the lock is eventually granted), and the `is_running`
flag. -/
structure RState where
  buf : List Nat
  output : CBuf
  running : Bool
deriving DecidableEq

/-- Embeds one iteration of the loop in `ClientSession::spawn_buf_reader`
(`command_runner.rs` lines 105-172), for a `CircularBuffer<4096>`
(`allocated_size() = 4096`): on EOF store `false` into `is_running` and
stop; on a byte, push it and flush the accumulation —
through a blocking lock when more than 4096 bytes have accumulated,
through `try_lock` (which may fail, `tryLockOk`) otherwise — but only
when `!is_outputting || output.len() + buf.len() <= 4096`; on a read
error, write its text to the buffer. Lock poisoning is not modelled. -/
def readerStep (is_outputting tryLockOk : Bool) (st : RState) (ev : ReadEvent) :
    RState :=
  match ev with
  | .eof => { st with running := false }
  | .byte b =>
    let buf := st.buf ++ [b]
    if 4096 < buf.length then
      if !is_outputting || st.output.len + buf.length ≤ 4096 then
        { st with buf := [], output := (cbWrite 4096 st.output buf).1 }
      else
        { st with buf := buf }
    else
      if tryLockOk then
        if !is_outputting || st.output.len + buf.length ≤ 4096 then
          { st with buf := [], output := (cbWrite 4096 st.output buf).1 }
        else
          { st with buf := buf }
      else
        { st with buf := buf }
  | .fault msg => { st with output := (cbWrite 4096 st.output msg).1 }

/-- An environment whose oracles always fail; the claims that use it never
reach them. -/
def envNone : SpawnEnv :=
  { canonicalize := fun _ _ => none, spawn := fun _ => none }

/-- An environment whose spawns always succeed with stdin handle 3. -/
def envSpawn3 : SpawnEnv :=
  { canonicalize := fun _ _ => none, spawn := fun _ => some 3 }

/-- A parked session that ran `sleep`: child still attached and running. -/
def sleepSession : Session :=
  { cmd_name := "sleep".toList, process := some .running, path := "/".toList,
    stdin := some 3, is_running := true, outputting := false, readerEof := false }

/-- An active session whose child has exited with status 0, the status not
yet consumed. -/
def exitedSession : Session :=
  { cmd_name := "sleep".toList, process := some (.exited 0), path := "/".toList,
    stdin := some 3, is_running := true, outputting := true, readerEof := false }

end RsPi

deriving instance DecidableEq for Except

namespace RsPi

theorem writeRange_append (src : List Nat) : ∀ (l1 l2 : List Nat) (k : Nat),
    writeRange (l1 ++ l2) (l1.length + k) src = l1 ++ writeRange l2 k src := by
  induction src with
  | nil => intro l1 l2 k; rfl
  | cons x xs ih =>
    intro l1 l2 k
    show writeRange ((l1 ++ l2).set (l1.length + k) x) (l1.length + k + 1) xs
        = l1 ++ writeRange (l2.set k x) (k + 1) xs
    rw [List.set_append_right _ _ (Nat.le_add_right _ _), Nat.add_sub_cancel_left,
      Nat.add_assoc]
    exact ih l1 (l2.set k x) (k + 1)

theorem writeRange_fill (src : List Nat) : ∀ (pad : List Nat), src.length ≤ pad.length →
    writeRange pad 0 src = src ++ pad.drop src.length := by
  induction src with
  | nil => intro pad _; rfl
  | cons x xs ih =>
    intro pad hlen
    match pad with
    | [] => exact absurd hlen (by simp)
    | p :: ps =>
      show writeRange ((p :: ps).set 0 x) 1 xs = (x :: xs) ++ (p :: ps).drop (xs.length + 1)
      have h1 : writeRange (x :: ps) 1 xs = [x] ++ writeRange ps 0 xs := by
        simpa using writeRange_append xs [x] ps 0
      have h2 : writeRange ps 0 xs = xs ++ ps.drop xs.length :=
        ih ps (Nat.le_of_succ_le_succ (by simpa using hlen))
      simp [List.set, h1, h2]

theorem writeAll_fresh (N : Nat) : ∀ (ws : List (List Nat)) (s pad : List Nat),
    s.length + pad.length = N → totalLen ws ≤ pad.length →
    ∃ pad2 : List Nat,
      writeAll N ⟨s ++ pad, 0, s.length⟩ ws
        = ⟨(s ++ ws.flatten) ++ pad2, 0, s.length + totalLen ws⟩
      ∧ (s.length + totalLen ws) + pad2.length = N := by
  intro ws
  induction ws with
  | nil =>
    intro s pad hsp _
    exact ⟨pad, by simp [writeAll, totalLen], by simpa [totalLen] using hsp⟩
  | cons w ws ih =>
    intro s pad hsp htot
    have htot1 : totalLen (w :: ws) = w.length + totalLen ws := by
      simp [totalLen]
    have hwpad : w.length ≤ pad.length := by
      omega
    have hsN : s.length ≤ N := by omega
    have hstep : (cbWrite N ⟨s ++ pad, 0, s.length⟩ w).1
        = ⟨(s ++ w) ++ pad.drop w.length, 0, (s ++ w).length⟩ := by
      rcases Nat.lt_or_ge s.length N with hlt | hge
      · have htail : (0 + s.length) % N = s.length := by
          rw [Nat.zero_add, Nat.mod_eq_of_lt hlt]
        have hsize : min N w.length = w.length := Nat.min_eq_right (by omega)
        have hfh : min w.length (N - s.length) = w.length :=
          Nat.min_eq_left (by omega)
        have hd1 : writeRange (s ++ pad) s.length w = s ++ (w ++ pad.drop w.length) := by
          have := writeRange_append w s pad 0
          rw [Nat.add_zero] at this
          rw [this, writeRange_fill w pad hwpad]
        simp only [cbWrite, htail, hsize, hfh, List.take_length, hd1]
        rw [if_neg (Nat.lt_irrefl _)]
        have hlen2 : min N (s.length + w.length) = s.length + w.length :=
          Nat.min_eq_right (by omega)
        simp [hlen2, List.append_assoc]
      · -- s fills the whole buffer: pad and w are empty
        have hsEq : s.length = N := Nat.le_antisymm hsN hge
        have hpad0 : pad.length = 0 := by omega
        have hw0 : w.length = 0 := by omega
        have hpadnil : pad = [] := List.eq_nil_of_length_eq_zero hpad0
        have hwnil : w = [] := List.eq_nil_of_length_eq_zero hw0
        subst hpadnil; subst hwnil
        simp [cbWrite, writeRange, hsEq]
    have hrec := ih (s ++ w) (pad.drop w.length)
      (by simp [List.length_append, List.length_drop]; omega)
      (by simp [List.length_drop]; omega)
    rcases hrec with ⟨pad2, heq, hlen⟩
    refine ⟨pad2, ?_, ?_⟩
    · show writeAll N (cbWrite N ⟨s ++ pad, 0, s.length⟩ w).1 ws = _
      rw [hstep, heq]
      simp [List.append_assoc, htot1, List.length_append, Nat.add_assoc]
    · simp only [List.length_append] at hlen
      omega

/-- C3: on a fresh `CircularBuffer<N>`, any sequence of `write` calls of
total length at most `N` followed by a full `write_to` drain yields exactly
the concatenation of the written byte sequences, in order. -/
theorem claim_C3 (N : Nat) (ws : List (List Nat)) (h : totalLen ws ≤ N) :
    drainBytes N (writeAll N (newCB N) ws) = ws.flatten := by
  have hfresh := writeAll_fresh N ws [] (List.replicate N 0)
    (by simp) (by simpa using h)
  rcases hfresh with ⟨pad2, heq, hlen⟩
  have hnew : newCB N = ⟨([] : List Nat) ++ List.replicate N 0, 0, ([] : List Nat).length⟩ := by
    simp [newCB]
  rw [hnew, heq]
  have hF : (ws.flatten).length = totalLen ws := by
    simp [totalLen, List.length_flatten]
  have hT : totalLen ws ≤ N := h
  simp only [List.nil_append, Nat.zero_add] at hlen ⊢
  -- drain a non-wrapping buffer whose first `totalLen ws` bytes are `ws.flatten`
  have hmin : min N (0 + totalLen ws) = totalLen ws := by
    rw [Nat.zero_add]; exact Nat.min_eq_right hT
  have htake : (ws.flatten ++ pad2).take (totalLen ws) = ws.flatten :=
    List.take_left' hF
  have hnowrap : ¬ N < 0 + totalLen ws := by omega
  have hmin2 : min N (totalLen ws) = totalLen ws := Nat.min_eq_right hT
  have hnowrap2 : ¬ N < totalLen ws := by omega
  simp [drainBytes, cbWriteTo, sinkWriteAll, hmin, htake, hnowrap, hmin2, hnowrap2]

/-- C3 witness: three writes totalling 3 ≤ 4 on a fresh 4-byte buffer
drain to their concatenation. -/
theorem claim_C3_witness :
    totalLen [[1, 2], [3]] ≤ 4
    ∧ drainBytes 4 (writeAll 4 (newCB 4) [[1, 2], [3]]) = List.flatten [[1, 2], [3]] :=
  ⟨by decide, claim_C3 4 [[1, 2], [3]] (by decide)⟩

/-- C2: the claim fails on the code. On a fresh `CircularBuffer<4>`, the
five 1-byte writes 97,98,99,100,101 (total 5 > 4) drain to
`[101, 98, 99, 100]`, not to the last four bytes `[98, 99, 100, 101]` of
the stream: `write` overwrites the oldest byte without ever advancing
`head`, so the drain starts at the newest byte. -/
theorem claim_C2_codebug :
    drainBytes 4 (writeAll 4 (newCB 4) [[97], [98], [99], [100], [101]]) = [101, 98, 99, 100]
    ∧ specLastBytes 4 (List.flatten [[97], [98], [99], [100], [101]]) = [98, 99, 100, 101]
    ∧ drainBytes 4 (writeAll 4 (newCB 4) [[97], [98], [99], [100], [101]])
        ≠ specLastBytes 4 (List.flatten [[97], [98], [99], [100], [101]]) := by
  decide

/-- C7: the claim fails on the code. The wrapped buffer state
`data = [10,11,12,13], head = 3, len = 2` satisfies the invariants, and its
FIFO contents are the 2 bytes `[13, 10]`; but `write_to` emits the 3 bytes
`[13, 10, 11]`, because the second sub-write passes `&data[..self.len]`
instead of the wrapped remainder `&data[..head+len-N]`. -/
theorem claim_C7_codebug :
    invCB 4 ⟨[10, 11, 12, 13], 3, 2⟩
    ∧ drainBytes 4 ⟨[10, 11, 12, 13], 3, 2⟩ = [13, 10, 11]
    ∧ specFifoContents 4 ⟨[10, 11, 12, 13], 3, 2⟩ = [13, 10]
    ∧ drainBytes 4 ⟨[10, 11, 12, 13], 3, 2⟩ ≠ specFifoContents 4 ⟨[10, 11, 12, 13], 3, 2⟩
    ∧ (drainBytes 4 ⟨[10, 11, 12, 13], 3, 2⟩).length ≠ (2 : Nat) := by
  decide

/-- C8: every buffer operation (`new`, `write`, `read`, `write_to`)
preserves `0 ≤ head < N` and `0 ≤ length ≤ N`, and `write` saturates the
length at `N` (`len' = N.min(len + size)`). -/
theorem claim_C8 (N : Nat) (hN : 0 < N) (b : CBuf) (hb : invCB N b)
    (buf : List Nat) (k : Nat) (snk : Sink) :
    invCB N (newCB N)
    ∧ invCB N (cbWrite N b buf).1
    ∧ (cbWrite N b buf).1.len = min N (b.len + min N buf.length)
    ∧ invCB N (cbReadState N b k)
    ∧ invCB N (cbWriteTo N b snk).2.1 := by
  refine ⟨⟨hN, Nat.zero_le N⟩, ⟨hb.1, Nat.min_le_left _ _⟩, rfl, ?_, ?_⟩
  · unfold cbReadState cbRead
    by_cases h0 : b.len = 0
    · simp [h0, hb]
    · simp only [h0, if_false]
      exact ⟨Nat.mod_lt _ hN, Nat.le_trans (Nat.sub_le _ _) hb.2⟩
  · unfold cbWriteTo
    rcases hw : sinkWriteAll snk ((b.data.take (min N (b.head + b.len))).drop b.head) with e | s1
    · simpa [hw] using hb
    · simp only [hw]
      by_cases hwrap : N < b.head + b.len
      · simp only [hwrap, if_true]
        rcases hw2 : sinkWriteAll s1 (b.data.take b.len) with e2 | s2
        · simpa [hw2] using hb
        · simpa [hw2] using ⟨Nat.mod_lt _ hN, Nat.zero_le N⟩
      · simpa [hwrap] using ⟨Nat.mod_lt _ hN, Nat.zero_le N⟩

/-- C8 witness at `N = 4`, a concrete in-invariant buffer, a 2-byte write,
a 1-byte read and an always-accepting sink. -/
theorem claim_C8_witness :
    invCB 4 (newCB 4)
    ∧ invCB 4 (cbWrite 4 ⟨[0, 0, 0, 0], 2, 1⟩ [5, 6]).1
    ∧ (cbWrite 4 ⟨[0, 0, 0, 0], 2, 1⟩ [5, 6]).1.len = min 4 (1 + min 4 2)
    ∧ invCB 4 (cbReadState 4 ⟨[0, 0, 0, 0], 2, 1⟩ 1)
    ∧ invCB 4 (cbWriteTo 4 ⟨[0, 0, 0, 0], 2, 1⟩ ⟨[], none⟩).2.1 :=
  claim_C8 4 (by decide) ⟨[0, 0, 0, 0], 2, 1⟩ (by decide) [5, 6] 1 ⟨[], none⟩

end RsPi


namespace RsPi

/-- C5: calling `run_command` on a session whose child has not exited
fails busy, and the whole session state — process handle, stdin pipe,
command name, working directory — is returned unchanged (the early return
precedes every mutation). -/
theorem claim_C5 (env : SpawnEnv) (s : Session) (cmd : List Char)
    (h : s.process = some .running) :
    run_command env s cmd = (.error .busy, s) := by
  simp [run_command, h]

/-- C5 witness: a concrete running session and command line. -/
theorem claim_C5_witness :
    sleepSession.process = some .running
    ∧ run_command envNone sleepSession "ls".toList = (.error .busy, sleepSession) :=
  ⟨by decide, claim_C5 envNone sleepSession "ls".toList (by decide)⟩

/-- C6 counterexample: the claim's "no-op" part fails on the code. On a
session holding an exited child with an unconsumed status, a
whitespace-only command line returns the empty-command error but the
session HAS changed: the reap step ran first, so the child's status was
consumed (and discarded) and the process slot cleared. -/
theorem claim_C6_counterexample :
    exitedSession.process = some (.exited 0)
    ∧ (run_command envNone exitedSession "  ".toList).1 = .error .emptyCmd
    ∧ (run_command envNone exitedSession "  ".toList).2 ≠ exitedSession
    ∧ (run_command envNone exitedSession "  ".toList).2.process = none := by
  refine ⟨by decide, by decide, by decide, by decide⟩

/-- C6 amended: an empty (or whitespace-only) command line fails with the
empty-command error and spawns nothing; command name, path, stdin and
flags are unchanged — but the reap step runs first, so an already-exited
child is reaped: its status is consumed and discarded and the process slot
cleared (a still-running child instead makes the call fail busy before the
empty check). -/
theorem claim_C6_amended (env : SpawnEnv) (s : Session) (cmd : List Char)
    (hws : splitWS cmd = []) (hnr : s.process ≠ some .running) :
    run_command env s cmd = (.error .emptyCmd, { s with process := none }) := by
  rcases s with ⟨cn, pr, pa, sd, ir, ou, re⟩
  cases pr with
  | none => simp [run_command, runCmdParsed, hws]
  | some p =>
    cases p with
    | running => simp at hnr
    | exited st => simp [run_command, runCmdParsed, hws]

/-- C6 amended witness: concrete exited session, whitespace-only input. -/
theorem claim_C6_amended_witness :
    splitWS "  ".toList = []
    ∧ exitedSession.process ≠ some .running
    ∧ run_command envNone exitedSession "  ".toList
        = (.error .emptyCmd, { exitedSession with process := none }) :=
  ⟨by decide, by decide,
    claim_C6_amended envNone exitedSession "  ".toList (by decide) (by decide)⟩

/-- C1: the claim fails on the code. Adopting an in-range numeric index
removes that session, but adopting a numeric index that denotes no pool
entry does not fail not-found: `procs.remove(id)` runs with no bounds
check and the handler thread panics. In particular, after one successful
adopt of index 0 from a one-element pool, a second `adopt 0` panics. -/
theorem claim_C1_codebug :
    adoptCmd (newSession "/".toList) [] "0".toList = .panic
    ∧ adoptCmd (newSession "/".toList) [sleepSession] "0".toList
        = .ok (set_is_outputting sleepSession true)
            (set_is_outputting (newSession "/".toList) false) []
    ∧ adoptCmd (set_is_outputting sleepSession true) [] "0".toList = .panic := by
  refine ⟨by decide, by decide, by decide⟩

/-- C9 counterexample: the claim fails on the code. In the reachable state
obtained by constructing a session and spawning `sleep 100`, the reader is
live (`readerEof = false`) and `is_running` is `true`; after a successful
`kill` of the child the reader is still live, yet `is_running` is now
`false`: `kill` stores `false` into the flag, so an operation on the child
process alone does change `is_running()`. -/
theorem claim_C9_counterexample :
    (run_command envSpawn3 (newSession "/".toList) "sleep 100".toList).2.is_running = true
    ∧ (run_command envSpawn3 (newSession "/".toList) "sleep 100".toList).2.readerEof = false
    ∧ (kill true (run_command envSpawn3 (newSession "/".toList) "sleep 100".toList).2).is_running
        = false
    ∧ (kill true (run_command envSpawn3 (newSession "/".toList) "sleep 100".toList).2).readerEof
        = false := by
  refine ⟨by decide, by decide, by decide, by decide⟩

/-- C9 amended: `is_running` is stored `true` when the reader starts and
`false` when it observes end-of-data — but `kill` also stores `false`
whenever a child is attached and the OS kill succeeds, without touching
the reader (its end-of-data state and the process slot are unchanged); so
after a successful kill `is_running()` returns `false` even though only
destruction of the terminal ends the reader. -/
theorem claim_C9_amended (s : Session) (killOk : Bool) :
    (kill killOk s).readerEof = s.readerEof
    ∧ (kill killOk s).process = s.process
    ∧ (s.process = none → kill killOk s = s)
    ∧ (s.process ≠ none → killOk = true → kill killOk s = { s with is_running := false }) := by
  cases hp : s.process with
  | none => simp [kill, hp]
  | some p => cases killOk <;> simp [kill, hp]

/-- C9 amended witness: killing the concrete running session clears
`is_running` and preserves the reader state. -/
theorem claim_C9_amended_witness :
    (kill true sleepSession).readerEof = sleepSession.readerEof
    ∧ kill true sleepSession = { sleepSession with is_running := false } :=
  ⟨(claim_C9_amended sleepSession true).1,
    (claim_C9_amended sleepSession true).2.2.2 (by decide) rfl⟩

theorem readerStep_no_flush (tryLockOk : Bool) (st : RState) (b : Nat)
    (hbig : 4096 < st.buf.length + 1)
    (hroom : ¬ st.output.len + (st.buf.length + 1) ≤ 4096) :
    readerStep true tryLockOk st (.byte b) = { st with buf := st.buf ++ [b] } := by
  simp [readerStep, List.length_append, hbig, hroom]

/-- C4: the claim fails on the code. With `outputting = true` and 4097
bytes accumulated, even a completely empty shared buffer (`len = 0`, the
maximal possible room) gets no flush: the reader only flushes when
`output.len() + buf.len() <= 4096`, which is impossible once the
accumulation exceeds the 4096-byte capacity, so the accumulated bytes are
never flushed while `outputting` stays `true` — the promised
"flushed without loss once the buffer has room" never happens. -/
theorem claim_C4_codebug :
    (newCB 4096).len = 0
    ∧ readerStep true true ⟨List.replicate 4096 7, newCB 4096, true⟩ (.byte 7)
        = ⟨List.replicate 4096 7 ++ [7], newCB 4096, true⟩ := by
  constructor
  · rfl
  · exact readerStep_no_flush true ⟨List.replicate 4096 7, newCB 4096, true⟩ 7
      (by simp only [List.length_replicate]; decide)
      (by simp only [newCB, List.length_replicate]; decide)

theorem cbWriteTo_error_state (N : Nat) (b : CBuf) (snk : Sink)
    (h : (cbWriteTo N b snk).1 = .error ()) : (cbWriteTo N b snk).2.1 = b := by
  unfold cbWriteTo at h ⊢
  rcases hw : sinkWriteAll snk ((b.data.take (min N (b.head + b.len))).drop b.head) with e | s1
  · simp [hw]
  · rw [hw] at h
    by_cases hwrap : N < b.head + b.len
    · simp only [hwrap, if_true] at h ⊢
      rcases hw2 : sinkWriteAll s1 (b.data.take b.len) with e2 | s2
      · simp [hw2]
      · simp [hw2] at h
    · simp [hwrap] at h

/-- C10: if the sink fails while `read_output` drains the buffer, the
call still returns `Ok(())` (the `write_to` result is discarded), the
buffer — `head` and `len` included — is unchanged (`write_to` returned
early before its reset), and a following successful drain emits the same
bytes. -/
theorem claim_C10 (N : Nat) (b : CBuf) (snk : Sink) (hne : ¬ b.len = 0)
    (herr : (cbWriteTo N b snk).1 = .error ()) :
    (read_output N b snk).1 = .ok ()
    ∧ (read_output N b snk).2.1 = b
    ∧ drainBytes N (read_output N b snk).2.1 = drainBytes N b := by
  have hb := cbWriteTo_error_state N b snk herr
  refine ⟨by simp [read_output, hne], by simp [read_output, hne, hb],
    by simp [read_output, hne, hb]⟩

/-- C10 witness: a 2-byte buffer drained into a sink that accepts
nothing. -/
theorem claim_C10_witness :
    ¬ (⟨[7, 8], 0, 2⟩ : CBuf).len = 0
    ∧ (cbWriteTo 2 ⟨[7, 8], 0, 2⟩ ⟨[], some 0⟩).1 = .error ()
    ∧ (read_output 2 ⟨[7, 8], 0, 2⟩ ⟨[], some 0⟩).1 = .ok ()
    ∧ (read_output 2 ⟨[7, 8], 0, 2⟩ ⟨[], some 0⟩).2.1 = ⟨[7, 8], 0, 2⟩
    ∧ drainBytes 2 (read_output 2 ⟨[7, 8], 0, 2⟩ ⟨[], some 0⟩).2.1
        = drainBytes 2 ⟨[7, 8], 0, 2⟩ := by
  have h := claim_C10 2 ⟨[7, 8], 0, 2⟩ ⟨[], some 0⟩ (by decide) (by decide)
  exact ⟨by decide, by decide, h.1, h.2.1, h.2.2⟩

end RsPi
